import Mathlib

/-
Verification development for the adk-mcp-ping keep-alive session manager.

The Python source (src/adk_mcp_ping/session_manager.py and toolset.py) is
shallowly embedded below:

* The task registry `self._ping_tasks : dict[str, asyncio.Task]` is an
  association list from session keys (strings) to task identifiers (naturals);
  `dict.pop(key, None)` becomes `popKey`, `key in dict` becomes `hasKey`.
* `_ping_loop` is a pure function over an oracle schedule of per-iteration
  events (what `asyncio.sleep`, `_is_session_disconnected` and
  `session.send_ping` would report), returning the exit path of the loop, the
  number of `send_ping` calls, whether CancelledError is re-raised, and the
  registry after the `finally:` cleanup.
* `_await_task_cancellation` is a function from the awaited task's outcome
  (an `Except` value mirroring a Python exception) to the warnings logged.
* `close` / `_cancel_all_ping_tasks` is `closeRun`: snapshot-and-clear the
  registry, then cancel and await every snapshotted task, then the provider
  close, emitting an action trace.
* Concurrency (create_session racing the loops and close under the
  asyncio.Lock) is a labeled transition system `Step` over `Sys`, with
  creators, ping tasks and the closer as agents and the lock held explicitly.
-/

/-! ## Registry: the `_ping_tasks` dict -/

abbrev Registry := List (String × Nat)

/-- Membership test mirroring the Python expression
session_key not in self._ping_tasks (negated). -/
def hasKey (r : Registry) (k : String) : Bool :=
  r.any (fun e => e.1 == k)

/-- Removal mirroring self._ping_tasks.pop(session_key, None): drops the
binding for the key, a no-op when no binding exists. -/
def popKey (r : Registry) (k : String) : Registry :=
  r.filter (fun e => e.1 != k)

theorem hasKey_iff (r : Registry) (k : String) :
    hasKey r k = true ↔ ∃ i, (k, i) ∈ r := by
  constructor
  · intro h
    rcases List.any_eq_true.mp h with ⟨e, he, hk⟩
    exact ⟨e.2, by
      have : e.1 = k := by simpa using hk
      simpa [← this] using he⟩
  · rintro ⟨i, hi⟩
    exact List.any_eq_true.mpr ⟨(k, i), hi, by simp⟩

theorem hasKey_false_iff (r : Registry) (k : String) :
    hasKey r k = false ↔ ∀ i, (k, i) ∉ r := by
  rw [← Bool.not_eq_true, hasKey_iff]
  push_neg
  simp

theorem mem_popKey (r : Registry) (k : String) (e : String × Nat) :
    e ∈ popKey r k ↔ e ∈ r ∧ e.1 ≠ k := by
  simp [popKey, List.mem_filter]

theorem popKey_nil (k : String) : popKey [] k = [] := rfl

theorem hasKey_popKey (r : Registry) (k k2 : String) :
    hasKey (popKey r k) k2 = ((k2 != k) && hasKey r k2) := by
  by_cases h2 : k2 = k
  · subst h2
    simp only [bne_self_eq_false, Bool.false_and]
    rw [← Bool.not_eq_true, hasKey_iff]
    push_neg
    intro i hi
    exact ((mem_popKey _ _ _).mp hi).2 rfl
  · have hbne : (k2 != k) = true := bne_iff_ne.mpr h2
    rw [hbne, Bool.true_and]
    have hiff : hasKey (popKey r k) k2 = true ↔ hasKey r k2 = true := by
      rw [hasKey_iff, hasKey_iff]
      constructor
      · rintro ⟨i, hi⟩
        exact ⟨i, ((mem_popKey _ _ _).mp hi).1⟩
      · rintro ⟨i, hi⟩
        exact ⟨i, (mem_popKey _ _ _).mpr ⟨hi, h2⟩⟩
    cases hA : hasKey (popKey r k) k2 <;> cases hB : hasKey r k2 <;> simp_all

/-- pop is a no-op when the key is absent (the None default of dict.pop). -/
theorem popKey_noop (r : Registry) (k : String) (h : hasKey r k = false) :
    popKey r k = r := by
  apply List.filter_eq_self.mpr
  intro e he
  have hk2 := (hasKey_false_iff r k).mp h e.2
  rw [bne_iff_ne]
  intro hk
  apply hk2
  have he2 : (k, e.2) = e := by rw [← hk]
  rw [he2]
  exact he

/-- pop is idempotent. -/
theorem popKey_idem (r : Registry) (k : String) :
    popKey (popKey r k) k = popKey r k := by
  simp [popKey, List.filter_filter]

theorem nodup_fst_popKey (r : Registry) (k : String)
    (h : (r.map Prod.fst).Nodup) : ((popKey r k).map Prod.fst).Nodup :=
  h.sublist ((List.filter_sublist r).map Prod.fst)

theorem nodup_fst_unique (r : Registry) (h : (r.map Prod.fst).Nodup)
    (k : String) (a b : Nat) (ha : (k, a) ∈ r) (hb : (k, b) ∈ r) : a = b := by
  induction r with
  | nil => cases ha
  | cons e rest ih =>
    rcases List.mem_cons.mp ha with ha1 | ha1 <;>
      rcases List.mem_cons.mp hb with hb1 | hb1
    · exact congrArg Prod.snd (ha1.trans hb1.symm)
    · exfalso
      have : e.1 ∈ rest.map Prod.fst := by
        subst ha1; exact List.mem_map.mpr ⟨(k, b), hb1, rfl⟩
      exact (List.nodup_cons.mp h).1 this
    · exfalso
      have : e.1 ∈ rest.map Prod.fst := by
        subst hb1; exact List.mem_map.mpr ⟨(k, a), ha1, rfl⟩
      exact (List.nodup_cons.mp h).1 this
    · exact ih (List.nodup_cons.mp h).2 ha1 hb1

/-! ## Association lists keyed by numeric identifiers (tasks, creators) -/

def assocFind {α : Type} : List (Nat × α) → Nat → Option α
  | [], _ => none
  | p :: rest, i => if p.1 = i then some p.2 else assocFind rest i

def assocUpdate {α : Type} (l : List (Nat × α)) (i : Nat) (v : α) :
    List (Nat × α) :=
  l.map (fun p => if p.1 = i then (i, v) else p)

theorem assocFind_cons_self {α : Type} (l : List (Nat × α)) (i : Nat) (v : α) :
    assocFind ((i, v) :: l) i = some v := by
  simp [assocFind]

theorem assocFind_cons_ne {α : Type} (l : List (Nat × α)) (i j : Nat) (v : α)
    (h : j ≠ i) : assocFind ((i, v) :: l) j = assocFind l j := by
  have h2 : ¬ i = j := fun hh => h hh.symm
  simp [assocFind, h2]

theorem assocFind_update {α : Type} (l : List (Nat × α)) (i j : Nat) (v : α) :
    assocFind (assocUpdate l i v) j =
      if j = i then (assocFind l i).map (fun _ => v) else assocFind l j := by
  induction l with
  | nil => by_cases h : j = i <;> simp [assocFind, assocUpdate, h]
  | cons p rest ih =>
    simp only [assocUpdate, List.map_cons] at ih ⊢
    by_cases hp : p.1 = i
    · by_cases hj : j = i
      · subst hj
        simp only [eq_self_iff_true, if_true] at ih ⊢
        rw [if_pos hp, assocFind_cons_self, assocFind, if_pos hp]
        rfl
      · rw [if_neg hj] at ih ⊢
        rw [if_pos hp, assocFind_cons_ne _ _ _ _ hj, ih, assocFind]
        have hpj : ¬ p.1 = j := by rw [hp]; exact fun hh => hj hh.symm
        rw [if_neg hpj]
    · rw [if_neg hp]
      by_cases hj : j = i
      · subst hj
        simp only [eq_self_iff_true, if_true] at ih ⊢
        rw [assocFind, if_neg hp, ih, assocFind, if_neg hp]
      · rw [if_neg hj] at ih ⊢
        by_cases hpj : p.1 = j
        · rw [assocFind, if_pos hpj, assocFind, if_pos hpj]
        · rw [assocFind, if_neg hpj, ih, assocFind, if_neg hpj]

theorem assocFind_update_self {α : Type} (l : List (Nat × α)) (i : Nat)
    (v t : α) (h : assocFind l i = some t) :
    assocFind (assocUpdate l i v) i = some v := by
  rw [assocFind_update]
  simp [h]

theorem assocFind_update_ne {α : Type} (l : List (Nat × α)) (i j : Nat) (v : α)
    (h : j ≠ i) : assocFind (assocUpdate l i v) j = assocFind l j := by
  rw [assocFind_update]
  simp [h]

theorem assocFind_some_mem {α : Type} (l : List (Nat × α)) (i : Nat) (t : α)
    (h : assocFind l i = some t) : (i, t) ∈ l := by
  induction l with
  | nil => cases h
  | cons p rest ih =>
    by_cases hp : p.1 = i
    · have h2 : p.2 = t := by simpa [assocFind, hp] using h
      have hpe : p = (i, t) := by
        cases p
        simp_all
      rw [← hpe]
      exact List.mem_cons_self _ _
    · simp only [assocFind, if_neg hp] at h
      exact List.mem_cons_of_mem _ (ih h)

theorem mem_assocUpdate {α : Type} (l : List (Nat × α)) (i : Nat) (v : α)
    (p : Nat × α) (h : p ∈ assocUpdate l i v) :
    (p ∈ l ∧ p.1 ≠ i) ∨ (p = (i, v) ∧ ∃ q ∈ l, q.1 = i) := by
  rcases List.mem_map.mp h with ⟨q, hq, hqp⟩
  by_cases hqi : q.1 = i
  · right
    constructor
    · rw [← hqp]; simp [hqi]
    · exact ⟨q, hq, hqi⟩
  · left
    constructor
    · rw [← hqp]; simpa [hqi] using hq
    · rw [← hqp]; simp [hqi]

/-! ## The ping loop (`_ping_loop`) as a function of an oracle schedule -/

/-- One iteration of the while-True body, as observed from outside: either
cancellation is delivered during asyncio.sleep, or the task wakes and sees
the given liveness-check result and (if it pings) the given ping outcome. -/
inductive IterEvent
  | cancelledInSleep
  | wake (disconnected : Bool) (pingOk : Bool)
deriving DecidableEq, Repr

/-- How the while-loop itself ended. -/
inductive LoopExit
  | disconnected
  | pingFailed
  | cancelled
deriving DecidableEq, Repr

/-- The while-True body of _ping_loop: sleep, liveness check, ping; counts
send_ping calls.  Returns none when the schedule runs out with the loop
still going (the task is still asleep). -/
def pingLoopIters : List IterEvent → Nat → Option LoopExit × Nat
  | [], n => (none, n)
  | IterEvent.cancelledInSleep :: _, n => (some LoopExit.cancelled, n)
  | IterEvent.wake d p :: rest, n =>
    if d then (some LoopExit.disconnected, n)
    else if p then pingLoopIters rest (n + 1)
    else (some LoopExit.pingFailed, n + 1)

/-- Observable result of one run of _ping_loop, including the
try/except/finally wrapper. -/
structure PingLoopResult where
  exitPath : Option LoopExit
  pings : Nat
  raisesCancelled : Bool
  errorLogged : Bool
  registryAfter : Registry
deriving DecidableEq, Repr

/-- The whole of _ping_loop: run the loop; CancelledError is logged and
re-raised, any other exception (a failed ping) is logged and swallowed, and
the finally-block removes the task's own key from the registry. -/
def ping_loop (σ : List IterEvent) (session_key : String) (r : Registry) :
    PingLoopResult :=
  match pingLoopIters σ 0 with
  | (none, n) => ⟨none, n, false, false, r⟩
  | (some e, n) =>
    ⟨some e, n, decide (e = LoopExit.cancelled),
      decide (e = LoopExit.pingFailed), popKey r session_key⟩

theorem pingLoopIters_replicate_ok (m : Nat) (σ : List IterEvent) (n : Nat) :
    pingLoopIters (List.replicate m (IterEvent.wake false true) ++ σ) n =
      pingLoopIters σ (n + m) := by
  induction m generalizing n with
  | zero => simp
  | succ m ih =>
    rw [List.replicate_succ, List.cons_append]
    have h1 : pingLoopIters (IterEvent.wake false true ::
        (List.replicate m (IterEvent.wake false true) ++ σ)) n =
        pingLoopIters (List.replicate m (IterEvent.wake false true) ++ σ)
          (n + 1) := rfl
    rw [h1, ih]
    congr 1
    omega

/-! ## `_await_task_cancellation` -/

/-- A Python exception as seen by the except-clauses of
_await_task_cancellation: asyncio.CancelledError or any other Exception. -/
inductive PyExc
  | cancelled
  | other (msg : String)
deriving DecidableEq, Repr

def warnMsg (e : String) : String :=
  "Error cancelling ping task: " ++ e

/-- try: await task / except CancelledError: pass / except Exception as e:
logger.warning(...).  Input is the awaited task's outcome, output is the
list of warnings logged; the function itself raises nothing. -/
def await_task_cancellation (awaited : Except PyExc Unit) :
    Except PyExc (List String) :=
  match awaited with
  | Except.ok _ => Except.ok []
  | Except.error PyExc.cancelled => Except.ok []
  | Except.error (PyExc.other m) => Except.ok [warnMsg m]

/-! ## `create_session` / `_start_ping_task_if_needed`, functionally -/

/-- An underlying MCP client session handle (opaque). -/
structure Session where
  id : Nat
deriving DecidableEq, Repr

/-- Observable actions of one create_session call. -/
inductive CsAction
  | providerCreate
  | keyComputed (k : String)
  | taskStarted (k : String)
deriving DecidableEq, Repr

structure CsResult where
  result : Except String Session
  registry : Registry
  nextTask : Nat
  actions : List CsAction
deriving Repr

/-- Body of the lock-guarded block of _start_ping_task_if_needed: insert a
fresh task if and only if the key has no entry yet.  Returns the new
registry, the next fresh task id, and whether a task was started. -/
def start_ping_task_if_needed (reg : Registry) (k : String) (nt : Nat) :
    Registry × Nat × Bool :=
  if hasKey reg k then (reg, nt, false)
  else ((k, nt) :: reg, nt + 1, true)

/-- create_session: delegate to the underlying provider (whose outcome is
the providerResult argument), then compute the session key from the headers
(the ADK key-derivation is the abstract genKey argument), then start a ping
task if needed, and return the provider's session.  A provider error
propagates unchanged and nothing else happens. -/
def create_session (providerResult : Except String Session)
    (genKey : List (String × String) → String)
    (headers : List (String × String)) (reg : Registry) (nt : Nat) :
    CsResult :=
  match providerResult with
  | Except.error e => ⟨Except.error e, reg, nt, [CsAction.providerCreate]⟩
  | Except.ok s =>
    let k := genKey headers
    let r2 := start_ping_task_if_needed reg k nt
    ⟨Except.ok s, r2.1, r2.2.1,
      [CsAction.providerCreate, CsAction.keyComputed k] ++
        (if r2.2.2 then [CsAction.taskStarted k] else [])⟩

/-! ## Constructors: `PingEnabledSessionManager.__init__`, toolset -/

def DEFAULT_PING_INTERVAL_SECONDS : ℚ := 50

/-- State built by PingEnabledSessionManager.__init__ (connection params and
errlog are opaque handles).  The registry starts empty. -/
structure PingEnabledSessionManager where
  connection_params : Nat
  ping_interval : ℚ
  errlog : Nat
  ping_tasks : Registry
deriving DecidableEq, Repr

/-- The constructor body: super().__init__(connection_params, errlog), then
store the interval unchanged and create the empty registry and its lock.
No validation of the interval occurs anywhere. -/
def PingEnabledSessionManager.init (cp : Nat) (interval : ℚ) (el : Nat) :
    PingEnabledSessionManager :=
  ⟨cp, interval, el, []⟩

/-- The configuration surface of the underlying McpToolset constructor
(types abstracted; the field modelling tool_name_prefix is tool_name_pfx). -/
structure BaseToolsetConfig where
  connection_params : Nat
  tool_filter : Option (List String)
  tool_name_pfx : Option String
  errlog : Nat
  auth_scheme : Option Nat
  auth_credential : Option Nat
  require_confirmation : Bool
  header_provider : Option Nat
deriving DecidableEq, Repr

/-- The session-manager reference a toolset holds: either whatever the base
McpToolset installed, or our replacement. -/
inductive SessionManagerRef
  | base (connection_params : Nat) (errlog : Nat)
  | pingEnabled (m : PingEnabledSessionManager)
deriving DecidableEq, Repr

structure McpToolsetState where
  cfg : BaseToolsetConfig
  mcp_session_manager : SessionManagerRef
deriving DecidableEq, Repr

/-- The base McpToolset constructor: records the configuration and installs
its own default session manager. -/
def McpToolset.init (c : BaseToolsetConfig) : McpToolsetState :=
  ⟨c, SessionManagerRef.base c.connection_params c.errlog⟩

structure PingEnabledMcpToolsetState where
  ping_interval : ℚ
  cfg : BaseToolsetConfig
  mcp_session_manager : SessionManagerRef
deriving DecidableEq, Repr

/-- PingEnabledMcpToolset.__init__: store the interval, delegate to the base
constructor with every base parameter, then replace the session manager
with a fresh PingEnabledSessionManager carrying the same connection params,
the same errlog and the configured interval. -/
def PingEnabledMcpToolset.init (c : BaseToolsetConfig) (interval : ℚ) :
    PingEnabledMcpToolsetState :=
  let b := McpToolset.init c
  { ping_interval := interval,
    cfg := b.cfg,
    mcp_session_manager := SessionManagerRef.pingEnabled
      (PingEnabledSessionManager.init c.connection_params interval c.errlog) }

/-- The constructor as called with ping_interval omitted. -/
def PingEnabledMcpToolset.initDefault (c : BaseToolsetConfig) :
    PingEnabledMcpToolsetState :=
  PingEnabledMcpToolset.init c DEFAULT_PING_INTERVAL_SECONDS

/-! ## Task control state, shared by the close model and the step system -/

/-- How the loop exits map to task states: a task is looping, has left the
loop and is about to acquire the lock for its finally-cleanup, holds the
lock in the cleanup, or is finished. -/
inductive TaskPC
  | looping
  | cleanupWait (e : LoopExit)
  | cleanupLocked (e : LoopExit)
  | finished (e : LoopExit)
deriving DecidableEq, Repr

def isFinished : TaskPC → Bool
  | TaskPC.finished _ => true
  | _ => false

/-- One ping task as tracked by the manager: its session key, the remaining
oracle schedule, its send_ping counter, its cancellation flag, and where it
is in its own control flow. -/
structure TaskCtl where
  key : String
  sched : List IterEvent
  pings : Nat
  cancelled : Bool
  pc : TaskPC
deriving DecidableEq, Repr

/-! ## `close` / `_cancel_all_ping_tasks` as a function -/

inductive CloseAction
  | snapshotClear
  | cancelTask (i : Nat)
  | awaitTask (i : Nat)
  | providerClose
deriving DecidableEq, Repr

structure CloseState where
  tasks : List (Nat × TaskCtl)
  reg : Registry
  trace : List CloseAction
deriving DecidableEq, Repr

/-- What a cancelled-and-awaited task does before close() observes its
termination: if still in its loop, CancelledError is delivered at the sleep
point and the finally-cleanup pops its key; if already on an exit path, the
cleanup finishes; an already finished task is merely awaited. -/
def runTaskToDone (t : TaskCtl) (r : Registry) : TaskCtl × Registry :=
  match t.pc with
  | TaskPC.looping =>
    ({ t with pc := TaskPC.finished LoopExit.cancelled }, popKey r t.key)
  | TaskPC.cleanupWait e =>
    ({ t with pc := TaskPC.finished e }, popKey r t.key)
  | TaskPC.cleanupLocked e =>
    ({ t with pc := TaskPC.finished e }, popKey r t.key)
  | TaskPC.finished _ => (t, r)

theorem runTaskToDone_finished (t : TaskCtl) (r : Registry) :
    isFinished (runTaskToDone t r).1.pc = true := by
  rcases t with ⟨k, s, p, c, pc⟩
  cases pc <;> rfl

theorem runTaskToDone_pings (t : TaskCtl) (r : Registry) :
    (runTaskToDone t r).1.pings = t.pings := by
  rcases t with ⟨k, s, p, c, pc⟩
  cases pc <;> rfl

theorem runTaskToDone_key (t : TaskCtl) (r : Registry) :
    (runTaskToDone t r).1.key = t.key := by
  rcases t with ⟨k, s, p, c, pc⟩
  cases pc <;> rfl

theorem runTaskToDone_reg_nil (t : TaskCtl) :
    (runTaskToDone t []).2 = [] := by
  rcases t with ⟨k, s, p, c, pc⟩
  cases pc <;> rfl

/-- task.cancel() followed by awaiting the task
(_await_task_cancellation); emits the two corresponding actions. -/
def closeCancelOne (st : CloseState) (e : String × Nat) : CloseState :=
  match assocFind st.tasks e.2 with
  | none =>
    ⟨st.tasks, st.reg,
      st.trace ++ [CloseAction.cancelTask e.2, CloseAction.awaitTask e.2]⟩
  | some t =>
    let tr := runTaskToDone { t with cancelled := true } st.reg
    ⟨assocUpdate st.tasks e.2 tr.1, tr.2,
      st.trace ++ [CloseAction.cancelTask e.2, CloseAction.awaitTask e.2]⟩

/-- _cancel_all_ping_tasks: under the lock, snapshot the registry and clear
it; then, outside the lock, cancel and await each snapshotted task in
order. -/
def cancel_all_ping_tasks (tasks : List (Nat × TaskCtl)) (reg : Registry) :
    CloseState :=
  reg.foldl closeCancelOne ⟨tasks, [], [CloseAction.snapshotClear]⟩

/-- close(): cancel all ping tasks, then close the underlying provider. -/
def closeRun (tasks : List (Nat × TaskCtl)) (reg : Registry) : CloseState :=
  let st := cancel_all_ping_tasks tasks reg
  ⟨st.tasks, st.reg, st.trace ++ [CloseAction.providerClose]⟩

/-- The cancel/await action pairs emitted for a snapshot, in order. -/
def cancelAwaitTrace : Registry → List CloseAction
  | [] => []
  | e :: rest =>
    CloseAction.cancelTask e.2 :: CloseAction.awaitTask e.2 ::
      cancelAwaitTrace rest

theorem closeCancelOne_reg_nil (st : CloseState) (e : String × Nat)
    (h : st.reg = []) : (closeCancelOne st e).reg = [] := by
  rcases hf : assocFind st.tasks e.2 with _ | t <;>
    simp [closeCancelOne, hf, h, runTaskToDone_reg_nil]

theorem closeCancelOne_trace (st : CloseState) (e : String × Nat) :
    (closeCancelOne st e).trace =
      st.trace ++ [CloseAction.cancelTask e.2, CloseAction.awaitTask e.2] := by
  rcases hf : assocFind st.tasks e.2 with _ | t <;>
    simp [closeCancelOne, hf]

theorem closeFold_reg_nil (l : Registry) (st : CloseState) (h : st.reg = []) :
    (l.foldl closeCancelOne st).reg = [] := by
  induction l generalizing st with
  | nil => exact h
  | cons e rest ih =>
    rw [List.foldl_cons]
    exact ih _ (closeCancelOne_reg_nil st e h)

theorem closeFold_trace (l : Registry) (st : CloseState) :
    (l.foldl closeCancelOne st).trace = st.trace ++ cancelAwaitTrace l := by
  induction l generalizing st with
  | nil => simp [cancelAwaitTrace]
  | cons e rest ih =>
    rw [List.foldl_cons, ih, closeCancelOne_trace, cancelAwaitTrace]
    simp

theorem closeCancelOne_find_self (st : CloseState) (e : String × Nat)
    (t : TaskCtl) (h : assocFind st.tasks e.2 = some t) :
    assocFind (closeCancelOne st e).tasks e.2 =
      some (runTaskToDone { t with cancelled := true } st.reg).1 := by
  simp only [closeCancelOne, h]
  exact assocFind_update_self _ _ _ _ h

theorem closeCancelOne_find_ne (st : CloseState) (e : String × Nat) (i : Nat)
    (h : i ≠ e.2) :
    assocFind (closeCancelOne st e).tasks i = assocFind st.tasks i := by
  rcases hf : assocFind st.tasks e.2 with _ | t
  · simp [closeCancelOne, hf]
  · simp only [closeCancelOne, hf]
    exact assocFind_update_ne _ _ _ _ h

theorem closeFold_find (l : Registry) (st : CloseState) (i : Nat)
    (t : TaskCtl) (h : assocFind st.tasks i = some t) :
    ∃ t2, assocFind ((l.foldl closeCancelOne st).tasks) i = some t2 ∧
      t2.pings = t.pings ∧ t2.key = t.key ∧
      (isFinished t.pc = true → isFinished t2.pc = true) := by
  induction l generalizing st t with
  | nil => exact ⟨t, h, rfl, rfl, fun hh => hh⟩
  | cons e rest ih =>
    rw [List.foldl_cons]
    by_cases hei : i = e.2
    · subst hei
      obtain ⟨t2, h2, hp, hk, hfin⟩ :=
        ih (closeCancelOne st e) _ (closeCancelOne_find_self st e t h)
      refine ⟨t2, h2, ?_, ?_, fun _ => hfin (runTaskToDone_finished _ _)⟩
      · rw [hp, runTaskToDone_pings]
      · rw [hk, runTaskToDone_key]
    · apply ih
      rw [closeCancelOne_find_ne st e i hei]
      exact h

theorem closeFold_processed (l : Registry) (st : CloseState) (k : String)
    (i : Nat) (t : TaskCtl) (hmem : (k, i) ∈ l)
    (h : assocFind st.tasks i = some t) :
    ∃ t2, assocFind ((l.foldl closeCancelOne st).tasks) i = some t2 ∧
      isFinished t2.pc = true ∧ t2.pings = t.pings ∧ t2.key = t.key := by
  induction l generalizing st t with
  | nil => cases hmem
  | cons e rest ih =>
    rw [List.foldl_cons]
    by_cases hei : i = e.2
    · subst hei
      obtain ⟨t2, h2, hp, hk, hfin⟩ :=
        closeFold_find rest (closeCancelOne st e) _ _
          (closeCancelOne_find_self st e t h)
      refine ⟨t2, h2, hfin (runTaskToDone_finished _ _), ?_, ?_⟩
      · rw [hp, runTaskToDone_pings]
      · rw [hk, runTaskToDone_key]
    · have hmem2 : (k, i) ∈ rest := by
        rcases List.mem_cons.mp hmem with h1 | h1
        · exact absurd (congrArg Prod.snd h1) hei
        · exact h1
      apply ih _ _ hmem2
      rw [closeCancelOne_find_ne st e i hei]
      exact h

/-! ## The interleaved system: creators, ping tasks, the closer, the lock -/

/-- Who can hold the asyncio.Lock. -/
inductive Agent
  | creator (c : Nat)
  | task (i : Nat)
  | closer
deriving DecidableEq, Repr

/-- A create_session call that has obtained its session and computed its key
(started), holds the registry lock (locked), or has returned (finished). -/
inductive CreatorPC
  | started
  | locked
  | finished
deriving DecidableEq, Repr

structure CreatorSt where
  key : String
  sched : List IterEvent
  pc : CreatorPC
deriving DecidableEq, Repr

/-- Where close() is: not called yet, holding the lock for the
snapshot-and-clear, cancelling or awaiting the head of the remaining
snapshot, closing the provider, or returned. -/
inductive CloserPC
  | idle
  | locked
  | cancelling (snap : Registry)
  | awaitingTask (snap : Registry)
  | closingProvider
  | closed
deriving DecidableEq, Repr

/-- The global state: the registry and its lock, all concurrent
create_session calls, all ping tasks, the fresh-task counter, and the
closer. -/
structure Sys where
  registry : Registry
  lock : Option Agent
  creators : List (Nat × CreatorSt)
  tasks : List (Nat × TaskCtl)
  nextTask : Nat
  closerPC : CloserPC
  providerClosed : Bool
deriving DecidableEq, Repr

/-- task.cancel(): set the cancellation flag of task i (no-op on an unknown
id). -/
def setTaskCancelled (l : List (Nat × TaskCtl)) (i : Nat) :
    List (Nat × TaskCtl) :=
  match assocFind l i with
  | none => l
  | some t => assocUpdate l i { t with cancelled := true }

inductive SLabel
  | spawnCreator (c : Nat) (k : String) (σ : List IterEvent)
  | creatorAcquire (c : Nat)
  | creatorCrit (c : Nat)
  | taskIter (i : Nat)
  | taskDisc (i : Nat)
  | taskPingFail (i : Nat)
  | taskCancelDelivered (i : Nat)
  | taskCleanupAcquire (i : Nat)
  | taskCleanupCrit (i : Nat)
  | closerAcquire
  | closerSnapClear
  | closerCancel (i : Nat)
  | closerAwait (i : Nat)
  | closerDoneCancelling
  | closerProviderClose
deriving DecidableEq, Repr

def actorOf : SLabel → Agent
  | SLabel.spawnCreator c _ _ => Agent.creator c
  | SLabel.creatorAcquire c => Agent.creator c
  | SLabel.creatorCrit c => Agent.creator c
  | SLabel.taskIter i => Agent.task i
  | SLabel.taskDisc i => Agent.task i
  | SLabel.taskPingFail i => Agent.task i
  | SLabel.taskCancelDelivered i => Agent.task i
  | SLabel.taskCleanupAcquire i => Agent.task i
  | SLabel.taskCleanupCrit i => Agent.task i
  | SLabel.closerAcquire => Agent.closer
  | SLabel.closerSnapClear => Agent.closer
  | SLabel.closerCancel _ => Agent.closer
  | SLabel.closerAwait _ => Agent.closer
  | SLabel.closerDoneCancelling => Agent.closer
  | SLabel.closerProviderClose => Agent.closer

/-- The awaited task has terminated (or is unknown). -/
def taskFinishedOrGone (s : Sys) (i : Nat) : Bool :=
  match assocFind s.tasks i with
  | none => true
  | some t => isFinished t.pc

/-- One interleaved step of the whole system.  Lock-protected regions are
two steps: acquiring the free lock, then the (await-free, hence atomic)
critical body which also releases.  Cancellation is delivered at the
sleep point, as asyncio does for a task suspended in asyncio.sleep. -/
inductive Step : Sys → SLabel → Sys → Prop
  | spawnCreator (s : Sys) (c : Nat) (k : String) (σ : List IterEvent)
      (h : assocFind s.creators c = none) :
      Step s (SLabel.spawnCreator c k σ)
        { s with creators := (c, ⟨k, σ, CreatorPC.started⟩) :: s.creators }
  | creatorAcquire (s : Sys) (c : Nat) (st : CreatorSt)
      (h : assocFind s.creators c = some st)
      (hpc : st.pc = CreatorPC.started) (hl : s.lock = none) :
      Step s (SLabel.creatorAcquire c)
        { s with
          lock := some (Agent.creator c),
          creators :=
            assocUpdate s.creators c { st with pc := CreatorPC.locked } }
  | creatorCritHit (s : Sys) (c : Nat) (st : CreatorSt)
      (h : assocFind s.creators c = some st)
      (hpc : st.pc = CreatorPC.locked)
      (hl : s.lock = some (Agent.creator c))
      (hk : hasKey s.registry st.key = true) :
      Step s (SLabel.creatorCrit c)
        { s with
          lock := none,
          creators :=
            assocUpdate s.creators c { st with pc := CreatorPC.finished } }
  | creatorCritMiss (s : Sys) (c : Nat) (st : CreatorSt)
      (h : assocFind s.creators c = some st)
      (hpc : st.pc = CreatorPC.locked)
      (hl : s.lock = some (Agent.creator c))
      (hk : hasKey s.registry st.key = false) :
      Step s (SLabel.creatorCrit c)
        { s with
          lock := none,
          creators :=
            assocUpdate s.creators c { st with pc := CreatorPC.finished },
          registry := (st.key, s.nextTask) :: s.registry,
          tasks := (s.nextTask,
            ⟨st.key, st.sched, 0, false, TaskPC.looping⟩) :: s.tasks,
          nextTask := s.nextTask + 1 }
  | taskIter (s : Sys) (i : Nat) (t : TaskCtl) (rest : List IterEvent)
      (h : assocFind s.tasks i = some t) (hpc : t.pc = TaskPC.looping)
      (hc : t.cancelled = false)
      (hs : t.sched = IterEvent.wake false true :: rest) :
      Step s (SLabel.taskIter i)
        { s with
          tasks := assocUpdate s.tasks i
            { t with sched := rest, pings := t.pings + 1 } }
  | taskDisc (s : Sys) (i : Nat) (t : TaskCtl) (p : Bool)
      (rest : List IterEvent)
      (h : assocFind s.tasks i = some t) (hpc : t.pc = TaskPC.looping)
      (hc : t.cancelled = false)
      (hs : t.sched = IterEvent.wake true p :: rest) :
      Step s (SLabel.taskDisc i)
        { s with
          tasks := assocUpdate s.tasks i
            { t with
              sched := rest,
              pc := TaskPC.cleanupWait LoopExit.disconnected } }
  | taskPingFail (s : Sys) (i : Nat) (t : TaskCtl) (rest : List IterEvent)
      (h : assocFind s.tasks i = some t) (hpc : t.pc = TaskPC.looping)
      (hc : t.cancelled = false)
      (hs : t.sched = IterEvent.wake false false :: rest) :
      Step s (SLabel.taskPingFail i)
        { s with
          tasks := assocUpdate s.tasks i
            { t with
              sched := rest, pings := t.pings + 1,
              pc := TaskPC.cleanupWait LoopExit.pingFailed } }
  | taskCancelDelivered (s : Sys) (i : Nat) (t : TaskCtl)
      (h : assocFind s.tasks i = some t) (hpc : t.pc = TaskPC.looping)
      (hc : t.cancelled = true) :
      Step s (SLabel.taskCancelDelivered i)
        { s with
          tasks := assocUpdate s.tasks i
            { t with pc := TaskPC.cleanupWait LoopExit.cancelled } }
  | taskCleanupAcquire (s : Sys) (i : Nat) (t : TaskCtl) (e : LoopExit)
      (h : assocFind s.tasks i = some t)
      (hpc : t.pc = TaskPC.cleanupWait e) (hl : s.lock = none) :
      Step s (SLabel.taskCleanupAcquire i)
        { s with
          lock := some (Agent.task i),
          tasks := assocUpdate s.tasks i
            { t with pc := TaskPC.cleanupLocked e } }
  | taskCleanupCrit (s : Sys) (i : Nat) (t : TaskCtl) (e : LoopExit)
      (h : assocFind s.tasks i = some t)
      (hpc : t.pc = TaskPC.cleanupLocked e)
      (hl : s.lock = some (Agent.task i)) :
      Step s (SLabel.taskCleanupCrit i)
        { s with
          lock := none,
          registry := popKey s.registry t.key,
          tasks := assocUpdate s.tasks i
            { t with pc := TaskPC.finished e } }
  | closerAcquire (s : Sys) (h : s.closerPC = CloserPC.idle)
      (hl : s.lock = none) :
      Step s SLabel.closerAcquire
        { s with
          lock := some Agent.closer, closerPC := CloserPC.locked }
  | closerSnapClear (s : Sys) (h : s.closerPC = CloserPC.locked)
      (hl : s.lock = some Agent.closer) :
      Step s SLabel.closerSnapClear
        { s with
          lock := none, registry := [],
          closerPC := CloserPC.cancelling s.registry }
  | closerCancel (s : Sys) (k : String) (i : Nat) (snap : Registry)
      (h : s.closerPC = CloserPC.cancelling ((k, i) :: snap)) :
      Step s (SLabel.closerCancel i)
        { s with
          tasks := setTaskCancelled s.tasks i,
          closerPC := CloserPC.awaitingTask ((k, i) :: snap) }
  | closerAwait (s : Sys) (k : String) (i : Nat) (snap : Registry)
      (h : s.closerPC = CloserPC.awaitingTask ((k, i) :: snap))
      (hfin : taskFinishedOrGone s i = true) :
      Step s (SLabel.closerAwait i)
        { s with closerPC := CloserPC.cancelling snap }
  | closerDoneCancelling (s : Sys)
      (h : s.closerPC = CloserPC.cancelling []) :
      Step s SLabel.closerDoneCancelling
        { s with closerPC := CloserPC.closingProvider }
  | closerProviderClose (s : Sys)
      (h : s.closerPC = CloserPC.closingProvider) :
      Step s SLabel.closerProviderClose
        { s with
          providerClosed := true, closerPC := CloserPC.closed }

def initSys : Sys :=
  { registry := [], lock := none, creators := [], tasks := [],
    nextTask := 0, closerPC := CloserPC.idle, providerClosed := false }

def StepAny (s s2 : Sys) : Prop := ∃ l, Step s l s2

def Reach (s : Sys) : Prop := Relation.ReflTransGen StepAny initSys s

/-- A step other than the shutdown snapshot-and-clear. -/
def StepNC (s s2 : Sys) : Prop :=
  ∃ l, Step s l s2 ∧ l ≠ SLabel.closerSnapClear

/-- Reachable without any shutdown snapshot-and-clear having occurred. -/
def ReachNC (s : Sys) : Prop := Relation.ReflTransGen StepNC initSys s

/-- The agent is inside a lock-protected critical region. -/
def InCrit (a : Agent) (s : Sys) : Prop :=
  match a with
  | Agent.creator c => ∃ st, assocFind s.creators c = some st ∧
      st.pc = CreatorPC.locked
  | Agent.task i => ∃ t, assocFind s.tasks i = some t ∧
      ∃ e, t.pc = TaskPC.cleanupLocked e
  | Agent.closer => s.closerPC = CloserPC.locked

/-- The per-pair registry/task correspondence claimed by the spec: an entry
for a key exists exactly when the task it names is this key's task and has
not yet run its self-removal. -/
def RegIff (s : Sys) : Prop :=
  ∀ (k : String) (i : Nat), (k, i) ∈ s.registry ↔
    ∃ t, assocFind s.tasks i = some t ∧ t.key = k ∧ isFinished t.pc = false

theorem setTaskCancelled_find_ne (l : List (Nat × TaskCtl)) (i j : Nat)
    (h : j ≠ i) : assocFind (setTaskCancelled l i) j = assocFind l j := by
  rcases hf : assocFind l i with _ | t
  · simp [setTaskCancelled, hf]
  · simp only [setTaskCancelled, hf]
    exact assocFind_update_ne _ _ _ _ h

theorem setTaskCancelled_find_self (l : List (Nat × TaskCtl)) (i : Nat)
    (t : TaskCtl) (h : assocFind l i = some t) :
    assocFind (setTaskCancelled l i) i = some { t with cancelled := true } := by
  simp only [setTaskCancelled, h]
  exact assocFind_update_self _ _ _ _ h

theorem hasKey_false_not_mem_fst (r : Registry) (k : String)
    (h : hasKey r k = false) : k ∉ r.map Prod.fst := by
  intro hmem
  rcases List.mem_map.mp hmem with ⟨e, he, hk⟩
  exact (hasKey_false_iff r k).mp h e.2 (by
    have : (k, e.2) = e := by rw [← hk]
    rw [this]
    exact he)

/-! ## Invariants of the interleaved system -/

/-- The inductive invariant: registry keys are unique, entries name only
tasks that exist and have not finished, entry ids are in range, and only
the lock holder is inside a critical region. -/
structure SysInv (s : Sys) : Prop where
  regKeysNodup : (s.registry.map Prod.fst).Nodup
  regIdsLt : ∀ e ∈ s.registry, e.2 < s.nextTask
  regEntriesLive : ∀ e ∈ s.registry, ∃ t, assocFind s.tasks e.2 = some t ∧
    t.key = e.1 ∧ isFinished t.pc = false
  critOwnsLock : ∀ a, InCrit a s → s.lock = some a

theorem sysInv_taskUpdate (s : Sys) (i : Nat) (t v : TaskCtl)
    (h : assocFind s.tasks i = some t) (hkey : v.key = t.key)
    (hfin : isFinished v.pc = false)
    (hncrit : ∀ e, v.pc ≠ TaskPC.cleanupLocked e) (hi : SysInv s) :
    SysInv { s with tasks := assocUpdate s.tasks i v } := by
  refine ⟨hi.regKeysNodup, hi.regIdsLt, ?_, ?_⟩
  · intro e2 he2
    obtain ⟨t0, hf0, hk0, hl0⟩ := hi.regEntriesLive e2 he2
    by_cases hei : e2.2 = i
    · rw [hei] at hf0 ⊢
      rw [h] at hf0
      injection hf0 with ht0
      refine ⟨v, assocFind_update_self _ _ _ _ h, ?_, hfin⟩
      rw [hkey, ht0]
      exact hk0
    · refine ⟨t0, ?_, hk0, hl0⟩
      rw [assocFind_update_ne _ _ _ _ hei]
      exact hf0
  · intro a ha
    apply hi.critOwnsLock
    cases a with
    | creator c => exact ha
    | closer => exact ha
    | task j =>
      rcases ha with ⟨t2, hf2, e0, hpc2⟩
      by_cases hji : j = i
      · subst hji
        rw [assocFind_update_self _ _ _ _ h] at hf2
        injection hf2 with hv
        subst hv
        exact absurd hpc2 (hncrit e0)
      · rw [assocFind_update_ne _ _ _ _ hji] at hf2
        exact ⟨t2, hf2, e0, hpc2⟩

theorem sysInv_step (s s2 : Sys) (l : SLabel) (hstep : Step s l s2)
    (hi : SysInv s) : SysInv s2 := by
  cases hstep with
  | spawnCreator c k σ h =>
    refine ⟨hi.regKeysNodup, hi.regIdsLt, hi.regEntriesLive, ?_⟩
    intro a ha
    apply hi.critOwnsLock
    cases a with
    | task i => exact ha
    | closer => exact ha
    | creator c2 =>
      rcases ha with ⟨st, hfind, hpc⟩
      by_cases hc : c2 = c
      · subst hc
        rw [assocFind_cons_self] at hfind
        injection hfind with hst
        rw [← hst] at hpc
        simp at hpc
      · rw [assocFind_cons_ne _ _ _ _ hc] at hfind
        exact ⟨st, hfind, hpc⟩
  | creatorAcquire c st h hpc hl =>
    refine ⟨hi.regKeysNodup, hi.regIdsLt, hi.regEntriesLive, ?_⟩
    intro a ha
    cases a with
    | creator c2 =>
      by_cases hc : c2 = c
      · subst hc
        rfl
      · exfalso
        rcases ha with ⟨st2, hfind, hpc2⟩
        rw [assocFind_update_ne _ _ _ _ hc] at hfind
        have h3 := hi.critOwnsLock (Agent.creator c2) ⟨st2, hfind, hpc2⟩
        rw [hl] at h3
        cases h3
    | task i =>
      exfalso
      have h3 := hi.critOwnsLock (Agent.task i) ha
      rw [hl] at h3
      cases h3
    | closer =>
      exfalso
      have h3 := hi.critOwnsLock Agent.closer ha
      rw [hl] at h3
      cases h3
  | creatorCritHit c st h hpc hl hk =>
    refine ⟨hi.regKeysNodup, hi.regIdsLt, hi.regEntriesLive, ?_⟩
    intro a ha
    exfalso
    cases a with
    | creator c2 =>
      rcases ha with ⟨st2, hfind, hpc2⟩
      by_cases hc : c2 = c
      · subst hc
        rw [assocFind_update_self _ _ _ _ h] at hfind
        injection hfind with hst
        rw [← hst] at hpc2
        simp at hpc2
      · rw [assocFind_update_ne _ _ _ _ hc] at hfind
        have h3 := hi.critOwnsLock (Agent.creator c2) ⟨st2, hfind, hpc2⟩
        rw [hl] at h3
        injection h3 with h4
        injection h4 with h5
        exact hc h5.symm
    | task i =>
      have h3 := hi.critOwnsLock (Agent.task i) ha
      rw [hl] at h3
      injection h3 with h4
      cases h4
    | closer =>
      have h3 := hi.critOwnsLock Agent.closer ha
      rw [hl] at h3
      injection h3 with h4
      cases h4
  | creatorCritMiss c st h hpc hl hk =>
    refine ⟨?_, ?_, ?_, ?_⟩
    · simp only [List.map_cons]
      exact List.nodup_cons.mpr
        ⟨hasKey_false_not_mem_fst _ _ hk, hi.regKeysNodup⟩
    · intro e2 he2
      rcases List.mem_cons.mp he2 with h1 | h1
      · rw [h1]
        exact Nat.lt_succ_self _
      · exact Nat.lt_succ_of_lt (hi.regIdsLt e2 h1)
    · intro e2 he2
      rcases List.mem_cons.mp he2 with h1 | h1
      · subst h1
        exact ⟨⟨st.key, st.sched, 0, false, TaskPC.looping⟩,
          assocFind_cons_self _ _ _, rfl, rfl⟩
      · obtain ⟨t0, hf0, hk0, hl0⟩ := hi.regEntriesLive e2 h1
        have hne : e2.2 ≠ s.nextTask := Nat.ne_of_lt (hi.regIdsLt e2 h1)
        refine ⟨t0, ?_, hk0, hl0⟩
        rw [assocFind_cons_ne _ _ _ _ hne]
        exact hf0
    · intro a ha
      exfalso
      cases a with
      | creator c2 =>
        rcases ha with ⟨st2, hfind, hpc2⟩
        by_cases hc : c2 = c
        · subst hc
          rw [assocFind_update_self _ _ _ _ h] at hfind
          injection hfind with hst
          rw [← hst] at hpc2
          simp at hpc2
        · rw [assocFind_update_ne _ _ _ _ hc] at hfind
          have h3 := hi.critOwnsLock (Agent.creator c2) ⟨st2, hfind, hpc2⟩
          rw [hl] at h3
          injection h3 with h4
          injection h4 with h5
          exact hc h5.symm
      | task i =>
        rcases ha with ⟨t2, hf2, e0, hpc2⟩
        by_cases hji : i = s.nextTask
        · subst hji
          rw [assocFind_cons_self] at hf2
          injection hf2 with ht
          rw [← ht] at hpc2
          simp at hpc2
        · rw [assocFind_cons_ne _ _ _ _ hji] at hf2
          have h3 := hi.critOwnsLock (Agent.task i) ⟨t2, hf2, e0, hpc2⟩
          rw [hl] at h3
          injection h3 with h4
          cases h4
      | closer =>
        have h3 := hi.critOwnsLock Agent.closer ha
        rw [hl] at h3
        injection h3 with h4
        cases h4
  | taskIter i t rest h hpc hc hs =>
    exact sysInv_taskUpdate s i t _ h rfl (by simp [hpc, isFinished])
      (by intro e0; simp [hpc]) hi
  | taskDisc i t p rest h hpc hc hs =>
    exact sysInv_taskUpdate s i t _ h rfl (by simp [isFinished])
      (by intro e0; simp) hi
  | taskPingFail i t rest h hpc hc hs =>
    exact sysInv_taskUpdate s i t _ h rfl (by simp [isFinished])
      (by intro e0; simp) hi
  | taskCancelDelivered i t h hpc hc =>
    exact sysInv_taskUpdate s i t _ h rfl (by simp [isFinished])
      (by intro e0; simp) hi
  | taskCleanupAcquire i t e h hpc hl =>
    refine ⟨hi.regKeysNodup, hi.regIdsLt, ?_, ?_⟩
    · intro e2 he2
      obtain ⟨t0, hf0, hk0, hl0⟩ := hi.regEntriesLive e2 he2
      by_cases hei : e2.2 = i
      · rw [hei] at hf0 ⊢
        rw [h] at hf0
        injection hf0 with ht0
        refine ⟨{ t with pc := TaskPC.cleanupLocked e },
          assocFind_update_self _ _ _ _ h, ?_, rfl⟩
        show t.key = e2.1
        rw [ht0]
        exact hk0
      · refine ⟨t0, ?_, hk0, hl0⟩
        rw [assocFind_update_ne _ _ _ _ hei]
        exact hf0
    · intro a ha
      cases a with
      | task j =>
        by_cases hji : j = i
        · subst hji
          rfl
        · exfalso
          rcases ha with ⟨t2, hf2, e0, hpc2⟩
          rw [assocFind_update_ne _ _ _ _ hji] at hf2
          have h3 := hi.critOwnsLock (Agent.task j) ⟨t2, hf2, e0, hpc2⟩
          rw [hl] at h3
          cases h3
      | creator c2 =>
        exfalso
        have h3 := hi.critOwnsLock (Agent.creator c2) ha
        rw [hl] at h3
        cases h3
      | closer =>
        exfalso
        have h3 := hi.critOwnsLock Agent.closer ha
        rw [hl] at h3
        cases h3
  | taskCleanupCrit i t e h hpc hl =>
    refine ⟨nodup_fst_popKey _ _ hi.regKeysNodup, ?_, ?_, ?_⟩
    · intro e2 he2
      exact hi.regIdsLt e2 ((mem_popKey _ _ _).mp he2).1
    · intro e2 he2
      obtain ⟨hmem, hne⟩ := (mem_popKey _ _ _).mp he2
      obtain ⟨t0, hf0, hk0, hl0⟩ := hi.regEntriesLive e2 hmem
      by_cases hei : e2.2 = i
      · exfalso
        rw [hei, h] at hf0
        injection hf0 with ht0
        rw [← ht0] at hk0
        exact hne hk0.symm
      · refine ⟨t0, ?_, hk0, hl0⟩
        rw [assocFind_update_ne _ _ _ _ hei]
        exact hf0
    · intro a ha
      exfalso
      cases a with
      | task j =>
        rcases ha with ⟨t2, hf2, e0, hpc2⟩
        by_cases hji : j = i
        · subst hji
          rw [assocFind_update_self _ _ _ _ h] at hf2
          injection hf2 with ht
          rw [← ht] at hpc2
          simp at hpc2
        · rw [assocFind_update_ne _ _ _ _ hji] at hf2
          have h3 := hi.critOwnsLock (Agent.task j) ⟨t2, hf2, e0, hpc2⟩
          rw [hl] at h3
          injection h3 with h4
          injection h4 with h5
          exact hji h5.symm
      | creator c2 =>
        have h3 := hi.critOwnsLock (Agent.creator c2) ha
        rw [hl] at h3
        injection h3 with h4
        cases h4
      | closer =>
        have h3 := hi.critOwnsLock Agent.closer ha
        rw [hl] at h3
        injection h3 with h4
        cases h4
  | closerAcquire h hl =>
    refine ⟨hi.regKeysNodup, hi.regIdsLt, hi.regEntriesLive, ?_⟩
    intro a ha
    cases a with
    | closer => rfl
    | creator c2 =>
      exfalso
      have h3 := hi.critOwnsLock (Agent.creator c2) ha
      rw [hl] at h3
      cases h3
    | task i =>
      exfalso
      have h3 := hi.critOwnsLock (Agent.task i) ha
      rw [hl] at h3
      cases h3
  | closerSnapClear h hl =>
    refine ⟨by simp, by simp, by simp, ?_⟩
    intro a ha
    exfalso
    cases a with
    | creator c2 =>
      have h3 := hi.critOwnsLock (Agent.creator c2) ha
      rw [hl] at h3
      injection h3 with h4
      cases h4
    | task i =>
      have h3 := hi.critOwnsLock (Agent.task i) ha
      rw [hl] at h3
      injection h3 with h4
      cases h4
    | closer =>
      cases (show CloserPC.cancelling s.registry = CloserPC.locked from ha)
  | closerCancel k i snap h =>
    refine ⟨hi.regKeysNodup, hi.regIdsLt, ?_, ?_⟩
    · intro e2 he2
      obtain ⟨t0, hf0, hk0, hl0⟩ := hi.regEntriesLive e2 he2
      by_cases hei : e2.2 = i
      · rw [hei] at hf0 ⊢
        refine ⟨{ t0 with cancelled := true },
          setTaskCancelled_find_self _ _ _ hf0, ?_, ?_⟩
        · show t0.key = e2.1
          exact hk0
        · show isFinished t0.pc = false
          exact hl0
      · refine ⟨t0, ?_, hk0, hl0⟩
        rw [setTaskCancelled_find_ne _ _ _ hei]
        exact hf0
    · intro a ha
      cases a with
      | creator c2 => exact hi.critOwnsLock (Agent.creator c2) ha
      | closer =>
        exfalso
        cases (show CloserPC.awaitingTask ((k, i) :: snap) =
          CloserPC.locked from ha)
      | task j =>
        apply hi.critOwnsLock (Agent.task j)
        rcases ha with ⟨t2, hf2, e0, hpc2⟩
        by_cases hji : j = i
        · subst hji
          rcases hf : assocFind s.tasks j with _ | t3
          · simp only [setTaskCancelled, hf] at hf2
            cases hf2
          · rw [setTaskCancelled_find_self _ _ _ hf] at hf2
            injection hf2 with ht
            refine ⟨t3, hf, e0, ?_⟩
            rw [← ht] at hpc2
            exact hpc2
        · rw [setTaskCancelled_find_ne _ _ _ hji] at hf2
          exact ⟨t2, hf2, e0, hpc2⟩
  | closerAwait k i snap h hfin =>
    refine ⟨hi.regKeysNodup, hi.regIdsLt, hi.regEntriesLive, ?_⟩
    intro a ha
    cases a with
    | creator c2 => exact hi.critOwnsLock (Agent.creator c2) ha
    | task j => exact hi.critOwnsLock (Agent.task j) ha
    | closer =>
      exfalso
      cases (show CloserPC.cancelling snap = CloserPC.locked from ha)
  | closerDoneCancelling h =>
    refine ⟨hi.regKeysNodup, hi.regIdsLt, hi.regEntriesLive, ?_⟩
    intro a ha
    cases a with
    | creator c2 => exact hi.critOwnsLock (Agent.creator c2) ha
    | task j => exact hi.critOwnsLock (Agent.task j) ha
    | closer =>
      exfalso
      cases (show CloserPC.closingProvider = CloserPC.locked from ha)
  | closerProviderClose h =>
    refine ⟨hi.regKeysNodup, hi.regIdsLt, hi.regEntriesLive, ?_⟩
    intro a ha
    cases a with
    | creator c2 => exact hi.critOwnsLock (Agent.creator c2) ha
    | task j => exact hi.critOwnsLock (Agent.task j) ha
    | closer =>
      exfalso
      cases (show CloserPC.closed = CloserPC.locked from ha)

theorem sysInv_init : SysInv initSys := by
  refine ⟨by simp [initSys], by simp [initSys], by simp [initSys], ?_⟩
  intro a ha
  exfalso
  cases a with
  | creator c =>
    rcases ha with ⟨st, hfind, hpc⟩
    cases (show (none : Option CreatorSt) = some st from hfind)
  | task i =>
    rcases ha with ⟨t, hfind, hpc⟩
    cases (show (none : Option TaskCtl) = some t from hfind)
  | closer =>
    cases (show CloserPC.idle = CloserPC.locked from ha)

theorem reach_inv (s : Sys) (h : Reach s) : SysInv s := by
  induction h with
  | refl => exact sysInv_init
  | tail hsteps hstep ih =>
    rcases hstep with ⟨l, hl⟩
    exact sysInv_step _ _ _ hl ih

/-! ## The close-free invariant: live tasks still own their entry -/

/-- Every not-yet-finished task has its own entry in the registry.  This
holds as long as no shutdown snapshot-and-clear has occurred. -/
def LiveHasEntry (s : Sys) : Prop :=
  ∀ p ∈ s.tasks, isFinished p.2.pc = false → (p.2.key, p.1) ∈ s.registry

theorem liveHasEntry_taskUpdate (s : Sys) (i : Nat) (t v : TaskCtl)
    (h : assocFind s.tasks i = some t) (hkey : v.key = t.key)
    (hlive0 : isFinished t.pc = false) (hl : LiveHasEntry s) :
    LiveHasEntry { s with tasks := assocUpdate s.tasks i v } := by
  intro p hp hfin
  rcases mem_assocUpdate _ _ _ _ hp with ⟨hpl, hpne⟩ | ⟨hpv, hq⟩
  · exact hl p hpl hfin
  · subst hpv
    show (v.key, i) ∈ s.registry
    rw [hkey]
    exact hl (i, t) (assocFind_some_mem _ _ _ h) hlive0

theorem liveHasEntry_step (s s2 : Sys) (l : SLabel) (hstep : Step s l s2)
    (hne : l ≠ SLabel.closerSnapClear) (hi : SysInv s)
    (hl : LiveHasEntry s) : LiveHasEntry s2 := by
  cases hstep with
  | spawnCreator c k σ h => exact hl
  | creatorAcquire c st h hpc hlk => exact hl
  | creatorCritHit c st h hpc hlk hk => exact hl
  | creatorCritMiss c st h hpc hlk hk =>
    intro p hp hfin
    rcases List.mem_cons.mp hp with h1 | h1
    · subst h1
      exact List.mem_cons_self _ _
    · exact List.mem_cons_of_mem _ (hl p h1 hfin)
  | taskIter i t rest h hpc hc hs =>
    exact liveHasEntry_taskUpdate s i t _ h rfl (by simp [hpc, isFinished]) hl
  | taskDisc i t p rest h hpc hc hs =>
    exact liveHasEntry_taskUpdate s i t _ h rfl (by simp [hpc, isFinished]) hl
  | taskPingFail i t rest h hpc hc hs =>
    exact liveHasEntry_taskUpdate s i t _ h rfl (by simp [hpc, isFinished]) hl
  | taskCancelDelivered i t h hpc hc =>
    exact liveHasEntry_taskUpdate s i t _ h rfl (by simp [hpc, isFinished]) hl
  | taskCleanupAcquire i t e h hpc hlk =>
    exact liveHasEntry_taskUpdate s i t _ h rfl (by simp [hpc, isFinished]) hl
  | taskCleanupCrit i t e h hpc hlk =>
    intro p hp hfin
    rcases mem_assocUpdate _ _ _ _ hp with ⟨hpl, hpne⟩ | ⟨hpv, hq⟩
    · have hmem := hl p hpl hfin
      rw [mem_popKey]
      refine ⟨hmem, ?_⟩
      intro hkeq
      have hkeq2 : p.2.key = t.key := hkeq
      have hTlive : isFinished t.pc = false := by simp [hpc, isFinished]
      have hT : (t.key, i) ∈ s.registry :=
        hl (i, t) (assocFind_some_mem _ _ _ h) hTlive
      rw [hkeq2] at hmem
      exact hpne (nodup_fst_unique s.registry hi.regKeysNodup
        t.key p.1 i hmem hT)
    · subst hpv
      simp [isFinished] at hfin
  | closerAcquire h hlk => exact hl
  | closerSnapClear h hlk => exact absurd rfl hne
  | closerCancel k i snap h =>
    intro p hp hfin
    rcases hf : assocFind s.tasks i with _ | t3
    · simp only [setTaskCancelled, hf] at hp
      exact hl p hp hfin
    · simp only [setTaskCancelled, hf] at hp
      rcases mem_assocUpdate _ _ _ _ hp with ⟨hpl, hpne⟩ | ⟨hpv, hq⟩
      · exact hl p hpl hfin
      · subst hpv
        have hlive3 : isFinished t3.pc = false := hfin
        exact hl (i, t3) (assocFind_some_mem _ _ _ hf) hlive3
  | closerAwait k i snap h hfin2 => exact hl
  | closerDoneCancelling h => exact hl
  | closerProviderClose h => exact hl

theorem reachNC_inv (s : Sys) (h : ReachNC s) :
    SysInv s ∧ LiveHasEntry s := by
  induction h with
  | refl =>
    refine ⟨sysInv_init, ?_⟩
    intro p hp hfin
    simp [initSys] at hp
  | tail hsteps hstep ih =>
    rcases hstep with ⟨l, hstep2, hne⟩
    exact ⟨sysInv_step _ _ _ hstep2 ih.1,
      liveHasEntry_step _ _ _ hstep2 hne ih.1 ih.2⟩

theorem reachNC_regIff (s : Sys) (h : ReachNC s) : RegIff s := by
  obtain ⟨hi, hl⟩ := reachNC_inv s h
  intro k i
  constructor
  · intro hmem
    exact hi.regEntriesLive (k, i) hmem
  · rintro ⟨t, hf, hk, hlive⟩
    have hmem := hl (i, t) (assocFind_some_mem _ _ _ hf) hlive
    rw [hk] at hmem
    exact hmem

/-! ## Claim theorems -/

/-- C4: the ping loop sleeps one interval, then checks liveness; if the
liveness check reports the session disconnected on the Nth check (after
m = N-1 successful iterations), the loop terminates normally — exit path
disconnected, no CancelledError re-raised, no error recorded — with exactly
m send_ping calls, and nothing after the disconnecting check is consumed;
the m = 0 instance is a session disconnected from the first check onward
receiving zero pings. -/
theorem C4_disconnect_stops_loop (m : Nat) (p : Bool) (rest : List IterEvent)
    (k : String) (r : Registry) :
    ping_loop (List.replicate m (IterEvent.wake false true) ++
        IterEvent.wake true p :: rest) k r =
      ⟨some LoopExit.disconnected, m, false, false, popKey r k⟩ := by
  unfold ping_loop
  rw [pingLoopIters_replicate_ok]
  simp [pingLoopIters]

/-- C5: if send_ping raises on attempt m+1 (after m successful pings),
exactly m+1 total ping attempts are made, the schedule after the failing
attempt is never consumed (no retry), the error is only recorded (logged),
never re-raised; and the finally-cleanup removes exactly this session's
key, leaving every other key's presence unchanged. -/
theorem C5_ping_failure_stops_loop (m : Nat) (rest : List IterEvent)
    (k : String) (r : Registry) :
    ping_loop (List.replicate m (IterEvent.wake false true) ++
        IterEvent.wake false false :: rest) k r =
      ⟨some LoopExit.pingFailed, m + 1, false, true, popKey r k⟩
    ∧ ∀ k2, hasKey (popKey r k) k2 = ((k2 != k) && hasKey r k2) := by
  constructor
  · unfold ping_loop
    rw [pingLoopIters_replicate_ok]
    simp [pingLoopIters]
  · intro k2
    exact hasKey_popKey r k k2

/-- C6: awaiting a cancelled ping task never raises to the caller of
close(): a CancelledError from the task is swallowed with no warning, any
other exception is logged as exactly one warning, and the call always
returns; the ping loop itself re-raises CancelledError — its raised flag is
set exactly when its exit path is cancellation. -/
theorem C6_cancellation_never_surfaces :
    (∀ awaited : Except PyExc Unit,
      ∃ w, await_task_cancellation awaited = Except.ok w)
    ∧ await_task_cancellation (Except.error PyExc.cancelled) = Except.ok []
    ∧ (∀ m, await_task_cancellation (Except.error (PyExc.other m)) =
        Except.ok [warnMsg m])
    ∧ (∀ (σ : List IterEvent) (k : String) (r : Registry),
        (ping_loop σ k r).raisesCancelled = true ↔
          (ping_loop σ k r).exitPath = some LoopExit.cancelled) := by
  refine ⟨?_, rfl, fun m => rfl, ?_⟩
  · intro awaited
    rcases awaited with e | u
    · rcases e with _ | m
      · exact ⟨[], rfl⟩
      · exact ⟨[warnMsg m], rfl⟩
    · exact ⟨[], rfl⟩
  · intro σ k r
    unfold ping_loop
    rcases hit : pingLoopIters σ 0 with ⟨eo, n⟩
    rcases eo with _ | e
    · simp
    · rcases e <;> simp

/-- C7: if the underlying provider's session creation fails, the error
propagates unchanged from create_session, the registry and the task
counter are untouched, and neither a session key is computed nor a ping
task started. -/
theorem C7_provider_error_propagates (e : String)
    (genKey : List (String × String) → String)
    (headers : List (String × String)) (reg : Registry) (nt : Nat) :
    create_session (Except.error e) genKey headers reg nt =
      ⟨Except.error e, reg, nt, [CsAction.providerCreate]⟩
    ∧ (∀ k, CsAction.keyComputed k ∉
        (create_session (Except.error e) genKey headers reg nt).actions)
    ∧ (∀ k, CsAction.taskStarted k ∉
        (create_session (Except.error e) genKey headers reg nt).actions) := by
  refine ⟨rfl, ?_, ?_⟩ <;> intro k2 <;> simp [create_session]

/-- C8: the facade accepts the whole base configuration plus ping_interval,
whose default is 50; it forwards the base configuration unchanged and then
replaces the session manager with a fresh PingEnabledSessionManager
carrying the same connection params, the same errlog and the configured
interval. -/
theorem C8_toolset_wiring (c : BaseToolsetConfig) (q : ℚ) :
    DEFAULT_PING_INTERVAL_SECONDS = 50
    ∧ (PingEnabledMcpToolset.init c q).cfg = c
    ∧ (PingEnabledMcpToolset.init c q).ping_interval = q
    ∧ (PingEnabledMcpToolset.init c q).mcp_session_manager =
        SessionManagerRef.pingEnabled ⟨c.connection_params, q, c.errlog, []⟩
    ∧ PingEnabledMcpToolset.initDefault c = PingEnabledMcpToolset.init c 50 := by
  exact ⟨rfl, rfl, rfl, rfl, rfl⟩

/-- C10: the session-manager constructor is total over every rational
interval — zero and negative included — and stores the interval unchanged;
the toolset constructor likewise forwards any interval unvalidated. -/
theorem C10_interval_never_validated (cp el : Nat) (q : ℚ)
    (c : BaseToolsetConfig) :
    PingEnabledSessionManager.init cp q el = ⟨cp, q, el, []⟩
    ∧ (PingEnabledSessionManager.init cp 0 el).ping_interval = 0
    ∧ (PingEnabledSessionManager.init cp (-1) el).ping_interval = -1
    ∧ (PingEnabledMcpToolset.init c q).mcp_session_manager =
        SessionManagerRef.pingEnabled
          (PingEnabledSessionManager.init c.connection_params q c.errlog) := by
  exact ⟨rfl, rfl, rfl, rfl⟩

/-- The three lock-guarded registry mutation sites: insert-if-absent,
remove-self, snapshot-and-clear. -/
def isRegistryMutation : SLabel → Bool
  | SLabel.creatorCrit _ => true
  | SLabel.taskCleanupCrit _ => true
  | SLabel.closerSnapClear => true
  | _ => false

/-- C1: in every reachable state at most one entry exists per key; a
create_session critical section that finds an entry for its key changes
neither the registry nor the task set nor the task counter; and
create_session returns the provider's session in both branches, with the
already-present branch leaving everything untouched. -/
theorem C1_idempotent_task_start :
    (∀ s, Reach s → (s.registry.map Prod.fst).Nodup)
    ∧ (∀ s s2 c st, Step s (SLabel.creatorCrit c) s2 →
        assocFind s.creators c = some st →
        hasKey s.registry st.key = true →
        s2.registry = s.registry ∧ s2.tasks = s.tasks ∧
          s2.nextTask = s.nextTask)
    ∧ (∀ (sess : Session) (genKey : List (String × String) → String)
        (headers : List (String × String)) (reg : Registry) (nt : Nat),
        (create_session (Except.ok sess) genKey headers reg nt).result =
          Except.ok sess)
    ∧ (∀ (genKey : List (String × String) → String)
        (headers : List (String × String)) (reg : Registry) (nt : Nat)
        (sess : Session), hasKey reg (genKey headers) = true →
        (create_session (Except.ok sess) genKey headers reg nt).registry =
          reg ∧
        (create_session (Except.ok sess) genKey headers reg nt).nextTask =
          nt) := by
  refine ⟨?_, ?_, ?_, ?_⟩
  · intro s hs
    exact (reach_inv s hs).regKeysNodup
  · intro s s2 c st hstep hfind hk
    cases hstep
    case creatorCritHit => exact ⟨rfl, rfl, rfl⟩
    case creatorCritMiss =>
      exfalso
      simp_all
  · intro sess genKey headers reg nt
    simp only [create_session]
  · intro genKey headers reg nt sess hk
    simp [create_session, start_ping_task_if_needed, hk]

/-- C1 witness: the idempotence facts at concrete inputs. -/
theorem C1_idempotent_task_start_witness :
    (initSys.registry.map Prod.fst).Nodup
    ∧ (create_session (Except.ok ⟨5⟩) (fun _ => "k") [] [("k", 0)] 3).result =
        Except.ok ⟨5⟩
    ∧ (create_session (Except.ok ⟨5⟩) (fun _ => "k") [] [("k", 0)] 3).registry =
        [("k", 0)] := by
  refine ⟨C1_idempotent_task_start.1 initSys Relation.ReflTransGen.refl,
    C1_idempotent_task_start.2.2.1 ⟨5⟩ (fun _ => "k") [] [("k", 0)] 3,
    (C1_idempotent_task_start.2.2.2 (fun _ => "k") [] [("k", 0)] 3 ⟨5⟩
      (by decide)).1⟩

/-- C2: close() empties the registry; its action trace is exactly the
lock-guarded snapshot-and-clear, then one cancel/await pair per snapshotted
entry, then — and only then — the provider close; every task tracked by the
snapshot is finished afterwards with its ping counter unchanged (so no
further send_ping); the snapshot-and-clear step requires holding the lock
and leaves the registry empty; and a finished task takes no further step in
the interleaved system. -/
theorem C2_close_order_and_postconditions :
    (∀ tasks reg, (closeRun tasks reg).reg = [])
    ∧ (∀ tasks reg, (closeRun tasks reg).trace =
        CloseAction.snapshotClear ::
          (cancelAwaitTrace reg ++ [CloseAction.providerClose]))
    ∧ (∀ tasks reg (k : String) (i : Nat) (t : TaskCtl),
        (k, i) ∈ reg → assocFind tasks i = some t →
        ∃ t2, assocFind (closeRun tasks reg).tasks i = some t2 ∧
          isFinished t2.pc = true ∧ t2.pings = t.pings)
    ∧ (∀ s s2, Step s SLabel.closerSnapClear s2 →
        s.lock = some Agent.closer ∧ s2.registry = [] ∧
          s2.closerPC = CloserPC.cancelling s.registry)
    ∧ (∀ s l s2 (i : Nat) (t : TaskCtl), Step s l s2 →
        actorOf l = Agent.task i → assocFind s.tasks i = some t →
        isFinished t.pc = false) := by
  refine ⟨?_, ?_, ?_, ?_, ?_⟩
  · intro tasks reg
    exact closeFold_reg_nil reg _ rfl
  · intro tasks reg
    show (cancel_all_ping_tasks tasks reg).trace ++
      [CloseAction.providerClose] = _
    rw [cancel_all_ping_tasks, closeFold_trace]
    simp
  · intro tasks reg k i t hmem hfind
    obtain ⟨t2, h2, hfin, hp, hk⟩ := closeFold_processed reg
      ⟨tasks, [], [CloseAction.snapshotClear]⟩ k i t hmem hfind
    exact ⟨t2, h2, hfin, hp⟩
  · intro s s2 hstep
    cases hstep with
    | closerSnapClear h hl => exact ⟨hl, rfl, rfl⟩
  · intro s l s2 i t hstep hactor hfind
    cases hstep with
    | spawnCreator c k σ h => cases hactor
    | creatorAcquire c st h hpc hl => cases hactor
    | creatorCritHit c st h hpc hl hk => cases hactor
    | creatorCritMiss c st h hpc hl hk => cases hactor
    | taskIter i2 t2 rest h hpc hc hs =>
      injection hactor with hii
      subst hii
      rw [h] at hfind
      injection hfind with ht
      rw [← ht, hpc]
      rfl
    | taskDisc i2 t2 p rest h hpc hc hs =>
      injection hactor with hii
      subst hii
      rw [h] at hfind
      injection hfind with ht
      rw [← ht, hpc]
      rfl
    | taskPingFail i2 t2 rest h hpc hc hs =>
      injection hactor with hii
      subst hii
      rw [h] at hfind
      injection hfind with ht
      rw [← ht, hpc]
      rfl
    | taskCancelDelivered i2 t2 h hpc hc =>
      injection hactor with hii
      subst hii
      rw [h] at hfind
      injection hfind with ht
      rw [← ht, hpc]
      rfl
    | taskCleanupAcquire i2 t2 e h hpc hl =>
      injection hactor with hii
      subst hii
      rw [h] at hfind
      injection hfind with ht
      rw [← ht, hpc]
      rfl
    | taskCleanupCrit i2 t2 e h hpc hl =>
      injection hactor with hii
      subst hii
      rw [h] at hfind
      injection hfind with ht
      rw [← ht, hpc]
      rfl
    | closerAcquire h hl => cases hactor
    | closerSnapClear h hl => cases hactor
    | closerCancel k i2 snap h => cases hactor
    | closerAwait k i2 snap h hfin => cases hactor
    | closerDoneCancelling h => cases hactor
    | closerProviderClose h => cases hactor

/-- C2 witness: closing a manager with one looping task for key k empties
the registry, finishes the task with its two pings intact, and the
snapshot-and-clear step from a locked closer state is well-formed. -/
theorem C2_close_order_and_postconditions_witness :
    (closeRun [(0, ⟨"k", [], 2, false, TaskPC.looping⟩)]
        [("k", 0)]).reg = []
    ∧ (∃ t2, assocFind (closeRun [(0, ⟨"k", [], 2, false, TaskPC.looping⟩)]
        [("k", 0)]).tasks 0 = some t2 ∧
        isFinished t2.pc = true ∧ t2.pings = 2)
    ∧ ({ initSys with
        lock := some Agent.closer,
        closerPC := CloserPC.locked } : Sys).lock = some Agent.closer := by
  refine ⟨C2_close_order_and_postconditions.1 _ _, ?_, ?_⟩
  · exact C2_close_order_and_postconditions.2.2.1 _ [("k", 0)] "k" 0
      ⟨"k", [], 2, false, TaskPC.looping⟩ (by simp) rfl
  · exact (C2_close_order_and_postconditions.2.2.2.1 _ _
      (Step.closerSnapClear _ rfl rfl)).1

/-- C9: mutual exclusion — in any reachable state at most one agent is
inside a lock-protected critical region; any step that changes the registry
is one of the three mutation sites and is taken while its actor holds the
lock; and a ping task's steps never insert a registry entry (a task cannot
re-insert itself after removal). -/
theorem C9_registry_mutation_serialization :
    (∀ s, Reach s → ∀ a b, InCrit a s → InCrit b s → a = b)
    ∧ (∀ s l s2, Step s l s2 → s2.registry ≠ s.registry →
        s.lock = some (actorOf l) ∧ isRegistryMutation l = true)
    ∧ (∀ s l s2 (i : Nat), Step s l s2 → actorOf l = Agent.task i →
        ∀ e, e ∈ s2.registry → e ∈ s.registry) := by
  refine ⟨?_, ?_, ?_⟩
  · intro s hs a b ha hb
    have h1 := (reach_inv s hs).critOwnsLock a ha
    have h2 := (reach_inv s hs).critOwnsLock b hb
    rw [h1] at h2
    exact Option.some.inj h2
  · intro s l s2 hstep hne
    cases hstep with
    | spawnCreator c k σ h => exact absurd rfl hne
    | creatorAcquire c st h hpc hl => exact absurd rfl hne
    | creatorCritHit c st h hpc hl hk => exact absurd rfl hne
    | creatorCritMiss c st h hpc hl hk => exact ⟨hl, rfl⟩
    | taskIter i t rest h hpc hc hs => exact absurd rfl hne
    | taskDisc i t p rest h hpc hc hs => exact absurd rfl hne
    | taskPingFail i t rest h hpc hc hs => exact absurd rfl hne
    | taskCancelDelivered i t h hpc hc => exact absurd rfl hne
    | taskCleanupAcquire i t e h hpc hl => exact absurd rfl hne
    | taskCleanupCrit i t e h hpc hl => exact ⟨hl, rfl⟩
    | closerAcquire h hl => exact absurd rfl hne
    | closerSnapClear h hl => exact ⟨hl, rfl⟩
    | closerCancel k i snap h => exact absurd rfl hne
    | closerAwait k i snap h hfin => exact absurd rfl hne
    | closerDoneCancelling h => exact absurd rfl hne
    | closerProviderClose h => exact absurd rfl hne
  · intro s l s2 i hstep hactor
    cases hstep with
    | spawnCreator c k σ h => cases hactor
    | creatorAcquire c st h hpc hl => cases hactor
    | creatorCritHit c st h hpc hl hk => cases hactor
    | creatorCritMiss c st h hpc hl hk => cases hactor
    | taskIter i2 t rest h hpc hc hs => exact fun e he => he
    | taskDisc i2 t p rest h hpc hc hs => exact fun e he => he
    | taskPingFail i2 t rest h hpc hc hs => exact fun e he => he
    | taskCancelDelivered i2 t h hpc hc => exact fun e he => he
    | taskCleanupAcquire i2 t e h hpc hl => exact fun e2 he => he
    | taskCleanupCrit i2 t e h hpc hl =>
      exact fun e2 he => ((mem_popKey _ _ _).mp he).1
    | closerAcquire h hl => cases hactor
    | closerSnapClear h hl => cases hactor
    | closerCancel k i2 snap h => cases hactor
    | closerAwait k i2 snap h hfin => cases hactor
    | closerDoneCancelling h => cases hactor
    | closerProviderClose h => cases hactor

/-- C9 witness: mutual exclusion at the reachable locked-closer state, and
the insert-if-absent mutation taken with the lock held. -/
theorem C9_registry_mutation_serialization_witness :
    Agent.closer = Agent.closer
    ∧ ({
        registry := [], lock := some (Agent.creator 0),
        creators := [(0, ⟨"k", [], CreatorPC.locked⟩)], tasks := [],
        nextTask := 0, closerPC := CloserPC.idle,
        providerClosed := false } : Sys).lock =
        some (actorOf (SLabel.creatorCrit 0)) := by
  constructor
  · exact C9_registry_mutation_serialization.1
      { initSys with
        lock := some Agent.closer,
        closerPC := CloserPC.locked }
      (Relation.ReflTransGen.tail Relation.ReflTransGen.refl
        ⟨SLabel.closerAcquire, Step.closerAcquire initSys rfl rfl⟩)
      Agent.closer Agent.closer rfl rfl
  · exact (C9_registry_mutation_serialization.2.1
      {
        registry := [], lock := some (Agent.creator 0),
        creators := [(0, ⟨"k", [], CreatorPC.locked⟩)], tasks := [],
        nextTask := 0, closerPC := CloserPC.idle, providerClosed := false }
      (SLabel.creatorCrit 0) _
      (Step.creatorCritMiss _ 0 ⟨"k", [], CreatorPC.locked⟩ rfl rfl rfl rfl)
      (by simp)).1

/-- The state reached by one create_session for key k followed by close()'s
snapshot-and-clear: the spawned task is still looping — it has not yet run
its self-removal — but the registry holds no entry for its key. -/
def sysAfterSnapClear : Sys :=
  { registry := [], lock := none,
    creators := [(0, ⟨"k", [], CreatorPC.finished⟩)],
    tasks := [(0, ⟨"k", [], 0, false, TaskPC.looping⟩)],
    nextTask := 1, closerPC := CloserPC.cancelling [("k", 0)],
    providerClosed := false }

/-- C3 counterexample: the claimed iff — an entry for a key exists exactly
when that key's task has not yet run its self-removal — fails in the
reachable state right after a shutdown snapshot-and-clear, where the task
is alive but its entry is gone. -/
theorem C3_registry_iff_counterexample :
    Reach sysAfterSnapClear ∧ ¬ RegIff sysAfterSnapClear := by
  constructor
  · have h1 : Reach {
        registry := [], lock := none,
        creators := [(0, ⟨"k", [], CreatorPC.started⟩)], tasks := [],
        nextTask := 0, closerPC := CloserPC.idle,
        providerClosed := false } :=
      Relation.ReflTransGen.tail Relation.ReflTransGen.refl
        ⟨SLabel.spawnCreator 0 "k" [],
          Step.spawnCreator initSys 0 "k" [] rfl⟩
    have h2 : Reach {
        registry := [], lock := some (Agent.creator 0),
        creators := [(0, ⟨"k", [], CreatorPC.locked⟩)], tasks := [],
        nextTask := 0, closerPC := CloserPC.idle,
        providerClosed := false } :=
      Relation.ReflTransGen.tail h1
        ⟨SLabel.creatorAcquire 0,
          Step.creatorAcquire _ 0 ⟨"k", [], CreatorPC.started⟩ rfl rfl rfl⟩
    have h3 : Reach {
        registry := [("k", 0)], lock := none,
        creators := [(0, ⟨"k", [], CreatorPC.finished⟩)],
        tasks := [(0, ⟨"k", [], 0, false, TaskPC.looping⟩)],
        nextTask := 1, closerPC := CloserPC.idle,
        providerClosed := false } :=
      Relation.ReflTransGen.tail h2
        ⟨SLabel.creatorCrit 0,
          Step.creatorCritMiss _ 0 ⟨"k", [], CreatorPC.locked⟩ rfl rfl rfl
            rfl⟩
    have h4 : Reach {
        registry := [("k", 0)], lock := some Agent.closer,
        creators := [(0, ⟨"k", [], CreatorPC.finished⟩)],
        tasks := [(0, ⟨"k", [], 0, false, TaskPC.looping⟩)],
        nextTask := 1, closerPC := CloserPC.locked,
        providerClosed := false } :=
      Relation.ReflTransGen.tail h3
        ⟨SLabel.closerAcquire, Step.closerAcquire _ rfl rfl⟩
    exact Relation.ReflTransGen.tail h4
      ⟨SLabel.closerSnapClear, Step.closerSnapClear _ rfl rfl⟩
  · intro hiff
    have h5 := (hiff "k" 0).mpr
      ⟨⟨"k", [], 0, false, TaskPC.looping⟩, rfl, rfl, rfl⟩
    simp [sysAfterSnapClear] at h5

/-- C3 (amended): every transition that finishes a task is that task's own
lock-guarded cleanup and it removes exactly the task's key from the
registry; the removal is idempotent and a no-op on an absent key; the
forward direction — an entry always names a not-yet-finished task with
that key — holds in every reachable state; and the full iff holds in every
state reachable without a shutdown snapshot-and-clear. -/
theorem C3_cleanup_on_every_exit_amended :
    (∀ s l s2 (i : Nat) (t t2 : TaskCtl), Step s l s2 →
        assocFind s.tasks i = some t → assocFind s2.tasks i = some t2 →
        isFinished t.pc = false → isFinished t2.pc = true →
        s2.registry = popKey s.registry t.key ∧
          l = SLabel.taskCleanupCrit i)
    ∧ (∀ (r : Registry) (k : String), hasKey r k = false → popKey r k = r)
    ∧ (∀ (r : Registry) (k : String),
        popKey (popKey r k) k = popKey r k)
    ∧ (∀ s, Reach s → ∀ e ∈ s.registry, ∃ t,
        assocFind s.tasks e.2 = some t ∧ t.key = e.1 ∧
          isFinished t.pc = false)
    ∧ (∀ s, ReachNC s → RegIff s) := by
  refine ⟨?_, popKey_noop, popKey_idem, ?_, reachNC_regIff⟩
  · intro s l s2 i t t2 hstep hf1 hf2 hlive hfin
    cases hstep with
    | spawnCreator c k σ h =>
      have hf2b : assocFind s.tasks i = some t2 := hf2
      rw [hf1] at hf2b
      injection hf2b with ht
      rw [← ht] at hfin
      rw [hlive] at hfin
      cases hfin
    | creatorAcquire c st h hpc hl =>
      have hf2b : assocFind s.tasks i = some t2 := hf2
      rw [hf1] at hf2b
      injection hf2b with ht
      rw [← ht] at hfin
      rw [hlive] at hfin
      cases hfin
    | creatorCritHit c st h hpc hl hk =>
      have hf2b : assocFind s.tasks i = some t2 := hf2
      rw [hf1] at hf2b
      injection hf2b with ht
      rw [← ht] at hfin
      rw [hlive] at hfin
      cases hfin
    | creatorCritMiss c st h hpc hl hk =>
      have hf2b : assocFind ((s.nextTask,
          (⟨st.key, st.sched, 0, false, TaskPC.looping⟩ : TaskCtl)) ::
          s.tasks) i = some t2 := hf2
      by_cases hni : i = s.nextTask
      · subst hni
        rw [assocFind_cons_self] at hf2b
        injection hf2b with ht
        rw [← ht] at hfin
        cases hfin
      · rw [assocFind_cons_ne _ _ _ _ hni, hf1] at hf2b
        injection hf2b with ht
        rw [← ht] at hfin
        rw [hlive] at hfin
        cases hfin
    | taskIter i2 t3 rest h hpc hc hs =>
      have hf2b : assocFind (assocUpdate s.tasks i2
          { t3 with sched := rest, pings := t3.pings + 1 }) i =
          some t2 := hf2
      by_cases hii : i = i2
      · subst hii
        rw [assocFind_update_self _ _ _ _ h] at hf2b
        injection hf2b with ht
        rw [← ht] at hfin
        simp [hpc, isFinished] at hfin
      · rw [assocFind_update_ne _ _ _ _ hii, hf1] at hf2b
        injection hf2b with ht
        rw [← ht] at hfin
        rw [hlive] at hfin
        cases hfin
    | taskDisc i2 t3 p rest h hpc hc hs =>
      have hf2b : assocFind (assocUpdate s.tasks i2
          { t3 with
            sched := rest,
            pc := TaskPC.cleanupWait LoopExit.disconnected }) i =
          some t2 := hf2
      by_cases hii : i = i2
      · subst hii
        rw [assocFind_update_self _ _ _ _ h] at hf2b
        injection hf2b with ht
        rw [← ht] at hfin
        simp [isFinished] at hfin
      · rw [assocFind_update_ne _ _ _ _ hii, hf1] at hf2b
        injection hf2b with ht
        rw [← ht] at hfin
        rw [hlive] at hfin
        cases hfin
    | taskPingFail i2 t3 rest h hpc hc hs =>
      have hf2b : assocFind (assocUpdate s.tasks i2
          { t3 with
            sched := rest, pings := t3.pings + 1,
            pc := TaskPC.cleanupWait LoopExit.pingFailed }) i =
          some t2 := hf2
      by_cases hii : i = i2
      · subst hii
        rw [assocFind_update_self _ _ _ _ h] at hf2b
        injection hf2b with ht
        rw [← ht] at hfin
        simp [isFinished] at hfin
      · rw [assocFind_update_ne _ _ _ _ hii, hf1] at hf2b
        injection hf2b with ht
        rw [← ht] at hfin
        rw [hlive] at hfin
        cases hfin
    | taskCancelDelivered i2 t3 h hpc hc =>
      have hf2b : assocFind (assocUpdate s.tasks i2
          { t3 with pc := TaskPC.cleanupWait LoopExit.cancelled }) i =
          some t2 := hf2
      by_cases hii : i = i2
      · subst hii
        rw [assocFind_update_self _ _ _ _ h] at hf2b
        injection hf2b with ht
        rw [← ht] at hfin
        simp [isFinished] at hfin
      · rw [assocFind_update_ne _ _ _ _ hii, hf1] at hf2b
        injection hf2b with ht
        rw [← ht] at hfin
        rw [hlive] at hfin
        cases hfin
    | taskCleanupAcquire i2 t3 e h hpc hl =>
      have hf2b : assocFind (assocUpdate s.tasks i2
          { t3 with pc := TaskPC.cleanupLocked e }) i = some t2 := hf2
      by_cases hii : i = i2
      · subst hii
        rw [assocFind_update_self _ _ _ _ h] at hf2b
        injection hf2b with ht
        rw [← ht] at hfin
        simp [isFinished] at hfin
      · rw [assocFind_update_ne _ _ _ _ hii, hf1] at hf2b
        injection hf2b with ht
        rw [← ht] at hfin
        rw [hlive] at hfin
        cases hfin
    | taskCleanupCrit i2 t3 e h hpc hl =>
      have hf2b : assocFind (assocUpdate s.tasks i2
          { t3 with pc := TaskPC.finished e }) i = some t2 := hf2
      by_cases hii : i = i2
      · subst hii
        rw [hf1] at h
        injection h with ht3
        constructor
        · show popKey s.registry t3.key = popKey s.registry t.key
          rw [← ht3]
        · rfl
      · rw [assocFind_update_ne _ _ _ _ hii, hf1] at hf2b
        injection hf2b with ht
        rw [← ht] at hfin
        rw [hlive] at hfin
        cases hfin
    | closerAcquire h hl =>
      have hf2b : assocFind s.tasks i = some t2 := hf2
      rw [hf1] at hf2b
      injection hf2b with ht
      rw [← ht] at hfin
      rw [hlive] at hfin
      cases hfin
    | closerSnapClear h hl =>
      have hf2b : assocFind s.tasks i = some t2 := hf2
      rw [hf1] at hf2b
      injection hf2b with ht
      rw [← ht] at hfin
      rw [hlive] at hfin
      cases hfin
    | closerCancel k i2 snap h =>
      have hf2b : assocFind (setTaskCancelled s.tasks i2) i = some t2 := hf2
      by_cases hii : i = i2
      · subst hii
        rw [setTaskCancelled_find_self _ _ _ hf1] at hf2b
        injection hf2b with ht
        have hpc2 : t2.pc = t.pc := by rw [← ht]
        rw [hpc2] at hfin
        rw [hlive] at hfin
        cases hfin
      · rw [setTaskCancelled_find_ne _ _ _ hii, hf1] at hf2b
        injection hf2b with ht
        rw [← ht] at hfin
        rw [hlive] at hfin
        cases hfin
    | closerAwait k i2 snap h hfin2 =>
      have hf2b : assocFind s.tasks i = some t2 := hf2
      rw [hf1] at hf2b
      injection hf2b with ht
      rw [← ht] at hfin
      rw [hlive] at hfin
      cases hfin
    | closerDoneCancelling h =>
      have hf2b : assocFind s.tasks i = some t2 := hf2
      rw [hf1] at hf2b
      injection hf2b with ht
      rw [← ht] at hfin
      rw [hlive] at hfin
      cases hfin
    | closerProviderClose h =>
      have hf2b : assocFind s.tasks i = some t2 := hf2
      rw [hf1] at hf2b
      injection hf2b with ht
      rw [← ht] at hfin
      rw [hlive] at hfin
      cases hfin
  · intro s hs
    exact (reach_inv s hs).regEntriesLive

/-- C3 witness: the idempotent no-op removal at an absent key, the iff in
the snapshot-free initial state, and the forward direction at a reachable
state holding one entry. -/
theorem C3_cleanup_on_every_exit_amended_witness :
    popKey ([] : Registry) "x" = []
    ∧ popKey (popKey [("k", 0)] "k") "k" = popKey [("k", 0)] "k"
    ∧ RegIff initSys
    ∧ (∃ t, assocFind [(0, (⟨"k", [], 0, false,
        TaskPC.looping⟩ : TaskCtl))] (("k", 0) : String × Nat).2 =
        some t ∧ t.key = ("k", 0).1 ∧ isFinished t.pc = false) := by
  refine ⟨C3_cleanup_on_every_exit_amended.2.1 [] "x" rfl,
    C3_cleanup_on_every_exit_amended.2.2.1 [("k", 0)] "k",
    C3_cleanup_on_every_exit_amended.2.2.2.2 initSys
      Relation.ReflTransGen.refl, ?_⟩
  have h1 : Reach {
      registry := [], lock := none,
      creators := [(0, ⟨"k", [], CreatorPC.started⟩)], tasks := [],
      nextTask := 0, closerPC := CloserPC.idle,
      providerClosed := false } :=
    Relation.ReflTransGen.tail Relation.ReflTransGen.refl
      ⟨SLabel.spawnCreator 0 "k" [],
        Step.spawnCreator initSys 0 "k" [] rfl⟩
  have h2 : Reach {
      registry := [], lock := some (Agent.creator 0),
      creators := [(0, ⟨"k", [], CreatorPC.locked⟩)], tasks := [],
      nextTask := 0, closerPC := CloserPC.idle,
      providerClosed := false } :=
    Relation.ReflTransGen.tail h1
      ⟨SLabel.creatorAcquire 0,
        Step.creatorAcquire _ 0 ⟨"k", [], CreatorPC.started⟩ rfl rfl rfl⟩
  have h3 : Reach {
      registry := [("k", 0)], lock := none,
      creators := [(0, ⟨"k", [], CreatorPC.finished⟩)],
      tasks := [(0, ⟨"k", [], 0, false, TaskPC.looping⟩)],
      nextTask := 1, closerPC := CloserPC.idle,
      providerClosed := false } :=
    Relation.ReflTransGen.tail h2
      ⟨SLabel.creatorCrit 0,
        Step.creatorCritMiss _ 0 ⟨"k", [], CreatorPC.locked⟩ rfl rfl rfl rfl⟩
  exact C3_cleanup_on_every_exit_amended.2.2.2.1 _ h3 ("k", 0)
    (List.mem_singleton.mpr rfl)
